import Mathlib

/-!
Shallow embedding of the kids-register firmware (src/kids-register.ino,
src/unnamed/part_002 = register-config.h) in Lean 4.

A C++ Arduino String is modelled as a list of byte values (Nat, each < 256 in
practice); uint32 arithmetic is modelled on Nat with explicit reduction
mod 2 ^ 32.  Rendering, tones and logging are side effects with no influence
on the modelled state and are omitted; everything else follows the source
line by line.
-/

namespace KidsRegister

/-- Bytes of a C++ String value. -/
abbrev Bytes := List Nat

/- Constants from kids-register.ino lines 14-64 (the ones the core logic uses). -/

def BARCODE_FRAME_GAP_MS : Nat := 300

def DEBUG_FRAME_GAP_MS : Nat := 0

def THANK_YOU_DURATION_MS : Nat := 3000

def ITEM_VISIBLE_ROWS : Nat := 3

def PRICE_MIN : Int := 50

def PRICE_STEP : Int := 10

def PRICE_LEVELS : Nat := 46

def FRAME_BUFFER_MAX_LENGTH : Nat := 128

def MIN_VALID_INPUT_LENGTH : Nat := 2

def BARCODE_MIN_VALID_LENGTH : Nat := 6

/-- `PRODUCT_NAMES` from register-config.h: the entries before the trailing
nullptr sentinel (the sentinel itself is only the C termination marker, so the
Lean list holds exactly the 19 real candidates). -/
def PRODUCT_NAMES : List String :=
  ["ぶろっこりー", "きゅうり", "とまと", "ぴーまん",
   "りんご", "いちご", "ばなな", "ぱいん",
   "おにぎり",
   "ぎゅうにゅう", "りんごじゅーす", "おれんじじゅーす", "おちゃ",
   "かむかむれもん", "おにぎりせんべい", "たべっこどうぶつ",
   "くーりっしゅ", "ゆきみだいふく", "こーんふれーく"]

/-- `getProductNameCount`: counts entries up to the nullptr sentinel. -/
def getProductNameCount : Nat := PRODUCT_NAMES.length

/-- `getProductName`: index is wrapped by the candidate count; empty list
falls back to a hardcoded name. -/
def getProductName (index : Nat) : String :=
  if getProductNameCount = 0 then "しょうひん"
  else PRODUCT_NAMES.getD (index % getProductNameCount) "しょうひん"

/-- `fnv1a32`: 32-bit FNV-1a over the bytes of the input, offset basis
2166136261, prime 16777619, XOR with each byte then multiply, all mod 2^32. -/
def fnv1a32 (input : Bytes) : Nat :=
  input.foldl (fun hash b => ((hash ^^^ b % 256) * 16777619) % 2 ^ 32) 2166136261

/-- Bytes of the salt string "|NAME|v1" appended for name selection. -/
def NAME_SALT : Bytes := [124, 78, 65, 77, 69, 124, 118, 49]

/-- Bytes of the salt string "|PRICE|v1" appended for price selection. -/
def PRICE_SALT : Bytes := [124, 80, 82, 73, 67, 69, 124, 118, 49]

/-- `Item`: a resolved product. -/
structure Item where
  name : String
  price : Int
deriving DecidableEq, Repr

/-- `resolveItemFromCode`: deterministic (code -> item) mapping via two
independently salted FNV-1a hashes; empty candidate list falls back to a
fixed item. -/
def resolveItemFromCode (code : Bytes) : Item :=
  if getProductNameCount = 0 then { name := "しょうひん", price := PRICE_MIN }
  else
    let nameHash := fnv1a32 (code ++ NAME_SALT)
    let nameIndex := nameHash % getProductNameCount
    let priceHash := fnv1a32 (code ++ PRICE_SALT)
    let step : Int := (priceHash % PRICE_LEVELS : Nat)
    { name := getProductName nameIndex, price := PRICE_MIN + step * PRICE_STEP }

/-- `calculateTotalSum`: sum of the cart item prices. -/
def calculateTotalSum (cart : List Item) : Int :=
  cart.foldl (fun total item => total + item.price) 0

/-- Bytes classified as whitespace by C isspace, which is what
Arduino String::trim removes from both ends: 0x20 and 0x09-0x0D. -/
def isSpaceByte (b : Nat) : Bool :=
  b == 32 || (decide (9 ≤ b) && decide (b ≤ 13))

/-- Arduino String::trim: removes isspace bytes from both ends. -/
def trimBytes (l : Bytes) : Bytes :=
  ((l.dropWhile isSpaceByte).reverse.dropWhile isSpaceByte).reverse

/-- Arduino String::startsWith for a byte string. -/
def startsWith (s pre : Bytes) : Bool :=
  match s, pre with
  | _, [] => true
  | [], _ :: _ => false
  | c :: cs, p :: ps => c == p && startsWith cs ps

/-- `tryNormalizeInput`: trims the raw input and accepts it when the trimmed
length reaches MIN_VALID_INPUT_LENGTH; the C++ out-parameter plus bool result
becomes an Option. -/
def tryNormalizeInput (rawInput : Bytes) : Option Bytes :=
  let normalizedInput := trimBytes rawInput
  if MIN_VALID_INPUT_LENGTH ≤ normalizedInput.length then some normalizedInput
  else none

/-- `isBarcodeControlResponse`: exact frame "3u" (bytes 51, 117), or any frame
of length at most 4 starting with a double quote (34) or a dollar sign (36). -/
def isBarcodeControlResponse (frame : Bytes) : Bool :=
  if frame = [51, 117] then true
  else if frame.length ≤ 4 && (startsWith frame [34] || startsWith frame [36]) then true
  else false

/-- `trimCartForDisplay`: while the cart holds more than ITEM_VISIBLE_ROWS
items, erase the oldest (front) one; equivalently drop the excess from the
front in one step. -/
def trimCartForDisplay (cart : List Item) : List Item :=
  if cart.length ≤ ITEM_VISIBLE_ROWS then cart
  else cart.drop (cart.length - ITEM_VISIBLE_ROWS)

/-- `trimFrameBuffer`: remove bytes from the front so that at most
FRAME_BUFFER_MAX_LENGTH remain. -/
def trimFrameBuffer (buffer : Bytes) : Bytes :=
  if buffer.length ≤ FRAME_BUFFER_MAX_LENGTH then buffer
  else buffer.drop (buffer.length - FRAME_BUFFER_MAX_LENGTH)

/-- uint32 subtraction `a - b` on the Nat model of millis timestamps. -/
def usub32 (a b : Nat) : Nat :=
  (a % 2 ^ 32 + 2 ^ 32 - b % 2 ^ 32) % 2 ^ 32

/-- `AppMode` enumeration. -/
inductive AppMode where
  | SELECT
  | REGISTER
  | CAMERA
deriving DecidableEq, Repr

/-- `AppState` enumeration. -/
inductive AppState where
  | NORMAL
  | THANK_YOU
deriving DecidableEq, Repr

/-- The mutable globals of the register logic: appMode, appState, cart and
thankYouStartedAtMs.  Rendering state is out of scope. -/
structure RegState where
  appMode : AppMode
  appState : AppState
  cart : List Item
  thankYouStartedAtMs : Nat
deriving DecidableEq, Repr

/-- `handleBarcodeCode`: guarded by mode REGISTER and state NORMAL, then the
control-response filter, then normalization (trim + minimum length 2), then
the dedicated barcode minimum length 6; on success the resolved item is
appended and the cart is trimmed for display. -/
def handleBarcodeCode (rawCode : Bytes) (s : RegState) : RegState :=
  if s.appMode ≠ AppMode.REGISTER ∨ s.appState ≠ AppState.NORMAL then s
  else if isBarcodeControlResponse rawCode then s
  else
    match tryNormalizeInput rawCode with
    | none => s
    | some code =>
      if code.length < BARCODE_MIN_VALID_LENGTH then s
      else { s with cart := trimCartForDisplay (s.cart ++ [resolveItemFromCode code]) }

/-- `handleRfidUid`: guarded by mode REGISTER and state NORMAL, then
normalization; on success the cart is cleared, the state moves to THANK_YOU
and the entry timestamp records millis() (passed here as `now`). -/
def handleRfidUid (now : Nat) (rawUid : Bytes) (s : RegState) : RegState :=
  if s.appMode ≠ AppMode.REGISTER ∨ s.appState ≠ AppState.NORMAL then s
  else
    match tryNormalizeInput rawUid with
    | none => s
    | some _ =>
      { s with cart := [], appState := AppState.THANK_YOU, thankYouStartedAtMs := now }

/-- `handleRegisterTouch`: only in state NORMAL, and only when the touch hits
the clear-button rectangle (the pure hit test result is passed as
`hitClear`), the cart is cleared. -/
def handleRegisterTouch (hitClear : Bool) (s : RegState) : RegState :=
  if s.appState ≠ AppState.NORMAL then s
  else if ¬hitClear then s
  else { s with cart := [] }

/-- `updateThankYouState`: in mode REGISTER and state THANK_YOU, once
millis() - thankYouStartedAtMs reaches THANK_YOU_DURATION_MS, the state
returns to NORMAL. -/
def updateThankYouState (now : Nat) (s : RegState) : RegState :=
  if s.appMode ≠ AppMode.REGISTER ∨ s.appState ≠ AppState.THANK_YOU then s
  else if usub32 now s.thankYouStartedAtMs < THANK_YOU_DURATION_MS then s
  else { s with appState := AppState.NORMAL }

/-- `handleDebugLine`: trim the line, then dispatch on the "BC:" (66 67 58)
or "RFID:" (82 70 73 68 58) prefixes, passing the remainder on. -/
def handleDebugLine (now : Nat) (rawLine : Bytes) (s : RegState) : RegState :=
  let line := trimBytes rawLine
  if startsWith line [66, 67, 58] then handleBarcodeCode (line.drop 3) s
  else if startsWith line [82, 70, 73, 68, 58] then handleRfidUid now (line.drop 5) s
  else s

/-- One register-machine input event, as in the poll loop: a barcode frame, an
RFID frame (with the millis() value at handling time), a touch on the clear
button (with the hit-test result), or a timer tick. -/
inductive Op where
  | barcode (rawCode : Bytes)
  | rfid (now : Nat) (rawUid : Bytes)
  | clear (hitClear : Bool)
  | tick (now : Nat)

/-- Dispatch one event to its handler. -/
def step (s : RegState) : Op → RegState
  | Op.barcode rawCode => handleBarcodeCode rawCode s
  | Op.rfid now rawUid => handleRfidUid now rawUid s
  | Op.clear hitClear => handleRegisterTouch hitClear s
  | Op.tick now => updateThankYouState now s

/-- Run a sequence of events. -/
def run (s : RegState) (ops : List Op) : RegState := ops.foldl step s

/-- The register machine state right after `switchToRegisterMode` at boot:
mode REGISTER, state NORMAL, the initially empty global cart. -/
def initRegisterState : RegState :=
  { appMode := AppMode.REGISTER, appState := AppState.NORMAL,
    cart := [], thankYouStartedAtMs := 0 }

/-- Per-channel frame decode state: the pending buffer and the
last-byte-received timestamp. -/
structure FrameState where
  buffer : Bytes
  lastByteAtMs : Nat
deriving DecidableEq, Repr

/-- `readFrame`: one call of the reader.  The stream is the list of currently
available bytes; the call returns the emitted frame (if any), the bytes left
unread on the stream, and the updated decode state.  Every read byte stamps
lastByteAtMs with millis() (`now`); CR (13) or LF (10) emits the non-empty
buffer and returns immediately; printable bytes (0x20-0x7E) are appended;
other bytes are dropped; the buffer is trimmed after every byte.  With the
stream exhausted, a configured non-zero frame gap whose inactivity threshold
has been reached emits the non-empty buffer. -/
def readFrame (now frameGapMs : Nat) : Bytes → FrameState → Option Bytes × Bytes × FrameState
  | [], st =>
    if 0 < frameGapMs ∧ st.buffer ≠ [] ∧ frameGapMs ≤ usub32 now st.lastByteAtMs then
      (some st.buffer, [], { st with buffer := [] })
    else
      (none, [], st)
  | ch :: rest, st =>
    if ch = 13 ∨ ch = 10 then
      if st.buffer = [] then
        readFrame now frameGapMs rest { st with lastByteAtMs := now }
      else
        (some st.buffer, rest, { buffer := [], lastByteAtMs := now })
    else if 32 ≤ ch ∧ ch ≤ 126 then
      readFrame now frameGapMs rest
        { buffer := trimFrameBuffer (st.buffer ++ [ch]), lastByteAtMs := now }
    else
      readFrame now frameGapMs rest
        { buffer := trimFrameBuffer st.buffer, lastByteAtMs := now }

/-- Termination measure of the poll loop: one readFrame call that emits a
frame either consumed a stream byte or flushed the non-empty buffer. -/
def frameMeasure (stream : Bytes) (st : FrameState) : Nat :=
  stream.length + (if st.buffer = [] then 0 else 1)

/-- The body of `while (readFrame(...)) handle(line)` with explicit fuel; the
fuel is only a structural-recursion device, `readAllFrames` below always
supplies enough of it (see `readAllFrames_eq`). -/
def readAllFramesAux (now frameGapMs : Nat) : Nat → Bytes → FrameState → List Bytes × FrameState
  | 0, _, st => ([], st)
  | fuel + 1, stream, st =>
    match readFrame now frameGapMs stream st with
    | (none, _, stNext) => ([], stNext)
    | (some frame, rest, stNext) =>
      let r := readAllFramesAux now frameGapMs fuel rest stNext
      (frame :: r.1, r.2)

/-- The poll loop `while (readFrame(stream, buffer, line, ...)) handle(line)`:
calls readFrame until it reports no frame, collecting the emitted frames in
order.  `stream.length + 1` bounds the number of loop iterations. -/
def readAllFrames (now frameGapMs : Nat) (stream : Bytes) (st : FrameState) :
    List Bytes × FrameState :=
  readAllFramesAux now frameGapMs (stream.length + 1) stream st

/-! Support lemmas about the frame reader. -/

theorem trimFrameBuffer_eq_drop (l : Bytes) :
    trimFrameBuffer l = l.drop (l.length - FRAME_BUFFER_MAX_LENGTH) := by
  unfold trimFrameBuffer
  split
  · have h : l.length - FRAME_BUFFER_MAX_LENGTH = 0 := by omega
    simp [h]
  · rfl

theorem trimFrameBuffer_length_le (l : Bytes) :
    (trimFrameBuffer l).length ≤ FRAME_BUFFER_MAX_LENGTH := by
  rw [trimFrameBuffer_eq_drop]
  simp only [List.length_drop]
  by_cases h : l.length ≤ FRAME_BUFFER_MAX_LENGTH <;> omega

theorem frameMeasure_le (stream : Bytes) (st : FrameState) :
    frameMeasure stream st ≤ stream.length + 1 := by
  simp only [frameMeasure]
  by_cases hb : st.buffer = [] <;> simp [hb]

theorem length_le_frameMeasure (stream : Bytes) (st : FrameState) :
    stream.length ≤ frameMeasure stream st := by
  simp only [frameMeasure]
  by_cases hb : st.buffer = [] <;> simp [hb]

/-- A readFrame call that emits a frame leaves an empty buffer and strictly
shrank the loop measure. -/
theorem readFrame_some_shrinks (now gap : Nat) (stream : Bytes) (st : FrameState)
    {f : Bytes} {rest : Bytes} {stNext : FrameState}
    (h : readFrame now gap stream st = (some f, rest, stNext)) :
    stNext.buffer = [] ∧ frameMeasure rest stNext < frameMeasure stream st := by
  induction stream generalizing st with
  | nil =>
    simp only [readFrame] at h
    split at h
    · rename_i hc
      simp only [Prod.mk.injEq, Option.some.injEq] at h
      obtain ⟨hf, hrest, hst⟩ := h
      subst hrest
      refine ⟨by rw [← hst], ?_⟩
      rw [← hst]
      simp only [frameMeasure, List.length_nil]
      have hb : st.buffer ≠ [] := hc.2.1
      simp [hb]
    · simp at h
  | cons ch tl ih =>
    have hcons : frameMeasure tl st + 1 ≤ frameMeasure (ch :: tl) st := by
      simp only [frameMeasure, List.length_cons]
      omega
    have hlen : tl.length + 1 ≤ frameMeasure (ch :: tl) st := by
      have := length_le_frameMeasure (ch :: tl) st
      simpa using this
    simp only [readFrame] at h
    split at h
    · split at h
      · rename_i hb
        have hsame : frameMeasure tl { st with lastByteAtMs := now } = frameMeasure tl st := by
          simp [frameMeasure]
        have := ih _ h
        exact ⟨this.1, by omega⟩
      · rename_i hb
        simp only [Prod.mk.injEq, Option.some.injEq] at h
        obtain ⟨hf, hrest, hst⟩ := h
        subst hrest
        refine ⟨by rw [← hst], ?_⟩
        rw [← hst]
        simp only [frameMeasure, List.length_cons]
        simp [hb]
        omega
    · split at h
      · have := ih _ h
        refine ⟨this.1, ?_⟩
        have hub := frameMeasure_le tl
          { buffer := trimFrameBuffer (st.buffer ++ [ch]), lastByteAtMs := now }
        omega
      · have := ih _ h
        refine ⟨this.1, ?_⟩
        have hub := frameMeasure_le tl
          { buffer := trimFrameBuffer st.buffer, lastByteAtMs := now }
        omega

/-- A readFrame call that emits no frame has consumed the whole stream. -/
theorem readFrame_none_rest (now gap : Nat) (stream : Bytes) (st : FrameState)
    {rest : Bytes} {stNext : FrameState}
    (h : readFrame now gap stream st = (none, rest, stNext)) : rest = [] := by
  induction stream generalizing st with
  | nil =>
    simp only [readFrame] at h
    split at h <;> simp_all
  | cons ch tl ih =>
    simp only [readFrame] at h
    split at h
    · split at h
      · exact ih _ h
      · simp at h
    · split at h
      · exact ih _ h
      · exact ih _ h

theorem readAllFramesAux_measure_zero (now gap : Nat) (stream : Bytes) (st : FrameState)
    (h : frameMeasure stream st = 0) (fuel : Nat) :
    readAllFramesAux now gap fuel stream st = ([], st) := by
  have hs : stream = [] := by
    simp only [frameMeasure] at h
    cases stream with
    | nil => rfl
    | cons a b => simp at h
  have hb : st.buffer = [] := by
    subst hs
    simp only [frameMeasure, List.length_nil, Nat.zero_add] at h
    by_cases hb : st.buffer = []
    · exact hb
    · simp [hb] at h
  subst hs
  cases fuel with
  | zero => rfl
  | succ n =>
    simp [readAllFramesAux, readFrame, hb]

theorem readAllFramesAux_succ_none (now gap fuel : Nat) (stream : Bytes) (st : FrameState)
    {rest : Bytes} {stNext : FrameState}
    (h : readFrame now gap stream st = (none, rest, stNext)) :
    readAllFramesAux now gap (fuel + 1) stream st = ([], stNext) := by
  simp [readAllFramesAux, h]

theorem readAllFramesAux_succ_some (now gap fuel : Nat) (stream : Bytes) (st : FrameState)
    {f rest : Bytes} {stNext : FrameState}
    (h : readFrame now gap stream st = (some f, rest, stNext)) :
    readAllFramesAux now gap (fuel + 1) stream st =
      (f :: (readAllFramesAux now gap fuel rest stNext).1,
        (readAllFramesAux now gap fuel rest stNext).2) := by
  simp [readAllFramesAux, h]

/-- The fuel argument of the loop body is irrelevant once it covers the
measure. -/
theorem readAllFramesAux_congr (now gap : Nat) :
    ∀ fuelA fuelB (stream : Bytes) (st : FrameState),
      frameMeasure stream st ≤ fuelA → frameMeasure stream st ≤ fuelB →
      readAllFramesAux now gap fuelA stream st = readAllFramesAux now gap fuelB stream st := by
  intro fuelA
  induction fuelA with
  | zero =>
    intro fuelB stream st hA hB
    have h0 : frameMeasure stream st = 0 := Nat.le_zero.mp hA
    rw [readAllFramesAux_measure_zero now gap stream st h0,
      readAllFramesAux_measure_zero now gap stream st h0]
  | succ n ih =>
    intro fuelB stream st hA hB
    cases fuelB with
    | zero =>
      have h0 : frameMeasure stream st = 0 := Nat.le_zero.mp hB
      rw [readAllFramesAux_measure_zero now gap stream st h0,
        readAllFramesAux_measure_zero now gap stream st h0]
    | succ m =>
      cases hr : readFrame now gap stream st with
      | mk o p =>
        obtain ⟨rest, stNext⟩ := p
        cases o with
        | none =>
          rw [readAllFramesAux_succ_none now gap n stream st hr,
            readAllFramesAux_succ_none now gap m stream st hr]
        | some f =>
          have hshrink := readFrame_some_shrinks now gap stream st hr
          have hm : frameMeasure rest stNext ≤ n := by omega
          have hm2 : frameMeasure rest stNext ≤ m := by omega
          rw [readAllFramesAux_succ_some now gap n stream st hr,
            readAllFramesAux_succ_some now gap m stream st hr,
            ih m rest stNext hm hm2]

/-- The loop satisfies its natural fixpoint equation: readAllFrames is exactly
repeated readFrame until it reports no frame. -/
theorem readAllFrames_eq (now gap : Nat) (stream : Bytes) (st : FrameState) :
    readAllFrames now gap stream st =
      match readFrame now gap stream st with
      | (none, _, stNext) => ([], stNext)
      | (some frame, rest, stNext) =>
        ((frame :: (readAllFrames now gap rest stNext).1),
          (readAllFrames now gap rest stNext).2) := by
  cases hr : readFrame now gap stream st with
  | mk o p =>
    obtain ⟨rest, stNext⟩ := p
    cases o with
    | none =>
      simp only [readAllFrames]
      rw [readAllFramesAux_succ_none now gap stream.length stream st hr]
    | some f =>
      have hshrink := readFrame_some_shrinks now gap stream st hr
      have hub := frameMeasure_le stream st
      have hle : frameMeasure rest stNext ≤ stream.length := by omega
      have hle2 : frameMeasure rest stNext ≤ rest.length + 1 := frameMeasure_le rest stNext
      simp only [readAllFrames]
      rw [readAllFramesAux_succ_some now gap stream.length stream st hr,
        readAllFramesAux_congr now gap stream.length (rest.length + 1) rest stNext hle hle2]

/-- uint32 elapsed time recovers the real delta while millis has not wrapped. -/
theorem usub32_add (t0 d : Nat) (h : t0 + d < 2 ^ 32) : usub32 (t0 + d) t0 = d := by
  unfold usub32
  have h0 : t0 < 2 ^ 32 := by omega
  have hd : d < 2 ^ 32 := by omega
  rw [Nat.mod_eq_of_lt h, Nat.mod_eq_of_lt h0]
  have harg : t0 + d + 2 ^ 32 - t0 = d + 2 ^ 32 := by omega
  rw [harg, Nat.add_mod_right, Nat.mod_eq_of_lt hd]

/-- Replace every CR byte of a stream by LF. -/
def crToLf (stream : Bytes) : Bytes :=
  stream.map (fun b => if b = 13 then 10 else b)

/-- One readFrame call cannot distinguish CR from LF: on the CR-to-LF image of
a stream it emits the same frame, leaves the image of the same rest, and ends
in the same state. -/
theorem readFrame_crToLf (now gap : Nat) (stream : Bytes) (st : FrameState) :
    readFrame now gap (crToLf stream) st =
      ((readFrame now gap stream st).1,
        crToLf (readFrame now gap stream st).2.1,
        (readFrame now gap stream st).2.2) := by
  induction stream generalizing st with
  | nil =>
    by_cases hc : 0 < gap ∧ st.buffer ≠ [] ∧ gap ≤ usub32 now st.lastByteAtMs <;>
      simp [crToLf, readFrame, hc]
  | cons ch tl ih =>
    have ih' : ∀ st2 : FrameState,
        readFrame now gap (List.map (fun b => if b = 13 then 10 else b) tl) st2 =
          ((readFrame now gap tl st2).1,
            List.map (fun b => if b = 13 then 10 else b) (readFrame now gap tl st2).2.1,
            (readFrame now gap tl st2).2.2) := by
      intro st2
      simpa [crToLf] using ih st2
    simp only [crToLf, List.map_cons]
    by_cases hterm : ch = 13 ∨ ch = 10
    · have hmap : (if ch = 13 then 10 else ch) = 10 := by
        rcases hterm with h | h <;> simp [h]
      rw [hmap]
      by_cases hb : st.buffer = []
      · have hL : readFrame now gap (10 :: List.map (fun b => if b = 13 then 10 else b) tl) st
            = readFrame now gap (List.map (fun b => if b = 13 then 10 else b) tl)
                { st with lastByteAtMs := now } := by
          simp [readFrame, hb]
        have hR : readFrame now gap (ch :: tl) st
            = readFrame now gap tl { st with lastByteAtMs := now } := by
          simp [readFrame, hterm, hb]
        rw [hL, hR]
        exact ih' _
      · have hL : readFrame now gap (10 :: List.map (fun b => if b = 13 then 10 else b) tl) st
            = (some st.buffer, List.map (fun b => if b = 13 then 10 else b) tl,
                { buffer := [], lastByteAtMs := now }) := by
          simp [readFrame, hb]
        have hR : readFrame now gap (ch :: tl) st
            = (some st.buffer, tl, { buffer := [], lastByteAtMs := now }) := by
          simp [readFrame, hterm, hb]
        rw [hL, hR]
    · have hmap : (if ch = 13 then 10 else ch) = ch := by
        have h13 : ch ≠ 13 := fun h => hterm (Or.inl h)
        simp [h13]
      rw [hmap]
      simp only [readFrame]
      rw [if_neg hterm, if_neg hterm]
      by_cases hp : 32 ≤ ch ∧ ch ≤ 126
      · rw [if_pos hp, if_pos hp]
        exact ih' _
      · rw [if_neg hp, if_neg hp]
        exact ih' _

theorem readAllFramesAux_crToLf (now gap : Nat) :
    ∀ fuel (stream : Bytes) (st : FrameState),
      readAllFramesAux now gap fuel (crToLf stream) st =
        readAllFramesAux now gap fuel stream st := by
  intro fuel
  induction fuel with
  | zero => intro stream st; rfl
  | succ n ih =>
    intro stream st
    cases hr : readFrame now gap stream st with
    | mk o p =>
      obtain ⟨rest, stNext⟩ := p
      have hr2 : readFrame now gap (crToLf stream) st = (o, crToLf rest, stNext) := by
        rw [readFrame_crToLf, hr]
      cases o with
      | none =>
        rw [readAllFramesAux_succ_none now gap n stream st hr,
          readAllFramesAux_succ_none now gap n (crToLf stream) st hr2]
      | some f =>
        rw [readAllFramesAux_succ_some now gap n stream st hr,
          readAllFramesAux_succ_some now gap n (crToLf stream) st hr2,
          ih rest stNext]

/-- Feeding printable non-terminator bytes just folds them into the buffer,
trimming after each append, and stamps the receive time. -/
theorem readFrame_printable (now gap : Nat) (bytes rest : Bytes) (st : FrameState)
    (h : ∀ b ∈ bytes, 32 ≤ b ∧ b ≤ 126) (hne : bytes ≠ []) :
    readFrame now gap (bytes ++ rest) st =
      readFrame now gap rest
        { buffer := bytes.foldl (fun buf b => trimFrameBuffer (buf ++ [b])) st.buffer,
          lastByteAtMs := now } := by
  induction bytes generalizing st with
  | nil => exact absurd rfl hne
  | cons b bs ih =>
    have hb := h b (List.mem_cons_self b bs)
    have hb13 : ¬(b = 13 ∨ b = 10) := by omega
    rw [List.cons_append]
    simp only [readFrame, if_neg hb13, if_pos hb, List.foldl_cons]
    cases bs with
    | nil => simp
    | cons c cs =>
      exact ih _ (fun x hx => h x (List.mem_cons_of_mem b hx)) (by simp)

/-- Appending bytes one at a time with trimming keeps exactly the newest
FRAME_BUFFER_MAX_LENGTH bytes of the concatenation. -/
theorem foldl_appendTrimmed (bytes : Bytes) :
    ∀ buf : Bytes, buf.length ≤ FRAME_BUFFER_MAX_LENGTH →
      bytes.foldl (fun buf b => trimFrameBuffer (buf ++ [b])) buf
        = (buf ++ bytes).drop ((buf ++ bytes).length - FRAME_BUFFER_MAX_LENGTH) := by
  induction bytes with
  | nil =>
    intro buf h
    simp only [List.foldl_nil, List.append_nil]
    rw [Nat.sub_eq_zero_of_le h, List.drop_zero]
  | cons b bs ih =>
    intro buf h
    rw [List.foldl_cons, ih (trimFrameBuffer (buf ++ [b])) (trimFrameBuffer_length_le _),
      trimFrameBuffer_eq_drop]
    have hk : (buf ++ [b]).length - FRAME_BUFFER_MAX_LENGTH ≤ (buf ++ [b]).length := by omega
    rw [← List.drop_append_of_le_length hk, List.drop_drop]
    have hassoc : (buf ++ [b]) ++ bs = buf ++ b :: bs := by simp
    rw [hassoc]
    refine congrFun (congrArg (@List.drop Nat) ?_) _
    simp only [List.length_append, List.length_drop, List.length_cons, List.length_nil]
    omega

/-- readFrame keeps the buffer within the cap, since the buffer is trimmed
after every appended byte. -/
theorem readFrame_buffer_le (now gap : Nat) (stream : Bytes) (st : FrameState)
    (h : st.buffer.length ≤ FRAME_BUFFER_MAX_LENGTH) :
    ((readFrame now gap stream st).2.2).buffer.length ≤ FRAME_BUFFER_MAX_LENGTH := by
  induction stream generalizing st with
  | nil =>
    by_cases hc : 0 < gap ∧ st.buffer ≠ [] ∧ gap ≤ usub32 now st.lastByteAtMs <;>
      simp [readFrame, hc, h]
  | cons ch tl ih =>
    by_cases hterm : ch = 13 ∨ ch = 10
    · by_cases hb : st.buffer = []
      · simpa [readFrame, hterm, hb] using ih { st with lastByteAtMs := now } h
      · simp [readFrame, hterm, hb]
    · by_cases hp : 32 ≤ ch ∧ ch ≤ 126
      · simpa [readFrame, hterm, hp] using
          ih { buffer := trimFrameBuffer (st.buffer ++ [ch]), lastByteAtMs := now }
            (trimFrameBuffer_length_le _)
      · simpa [readFrame, hterm, hp] using
          ih { buffer := trimFrameBuffer st.buffer, lastByteAtMs := now }
            (trimFrameBuffer_length_le _)

theorem tryNormalizeInput_of_le (rawInput : Bytes)
    (h : MIN_VALID_INPUT_LENGTH ≤ (trimBytes rawInput).length) :
    tryNormalizeInput rawInput = some (trimBytes rawInput) := by
  simp [tryNormalizeInput, h]

theorem tryNormalizeInput_of_lt (rawInput : Bytes)
    (h : (trimBytes rawInput).length < MIN_VALID_INPUT_LENGTH) :
    tryNormalizeInput rawInput = none := by
  have h2 : ¬MIN_VALID_INPUT_LENGTH ≤ (trimBytes rawInput).length := by omega
  simp [tryNormalizeInput, h2]

/-- A control response is short: the exact frame is 2 bytes long, the quoted
and dollar forms at most 4. -/
theorem isBarcodeControlResponse_length (frame : Bytes)
    (h : isBarcodeControlResponse frame = true) : frame.length ≤ 4 := by
  unfold isBarcodeControlResponse at h
  split at h
  · rename_i heq
    subst heq
    simp
  · split at h
    · rename_i hcond
      have := (Bool.and_eq_true _ _).mp hcond
      have hlen := of_decide_eq_true (by simpa using this.1)
      omega
    · simp at h

/-- A frame long enough for the dedicated barcode minimum is never classified
as a control response. -/
theorem isBarcodeControlResponse_of_long (frame : Bytes)
    (h : 5 ≤ frame.length) : isBarcodeControlResponse frame = false := by
  by_cases hc : isBarcodeControlResponse frame = true
  · have := isBarcodeControlResponse_length frame hc
    omega
  · simpa using hc

/-- trimBytes only removes bytes. -/
theorem trimBytes_length_le (l : Bytes) : (trimBytes l).length ≤ l.length := by
  unfold trimBytes
  have h1 : (l.dropWhile isSpaceByte).length ≤ l.length :=
    (List.dropWhile_sublist _).length_le
  have h2 : ((l.dropWhile isSpaceByte).reverse.dropWhile isSpaceByte).length
      ≤ (l.dropWhile isSpaceByte).reverse.length :=
    (List.dropWhile_sublist _).length_le
  simp only [List.length_reverse] at h2 ⊢
  omega

/-- Full characterization of `handleBarcodeCode` in REGISTER mode: the item
resolved from the trimmed code is appended (and the cart display-trimmed)
exactly when the state is NORMAL, the raw code is not a control response and
the trimmed code meets the dedicated barcode minimum length; otherwise the
state is untouched. -/
theorem handleBarcodeCode_spec (rawCode : Bytes) (s : RegState)
    (hMode : s.appMode = AppMode.REGISTER) :
    (s.appState = AppState.NORMAL ∧ isBarcodeControlResponse rawCode = false ∧
        BARCODE_MIN_VALID_LENGTH ≤ (trimBytes rawCode).length →
      handleBarcodeCode rawCode s =
        { s with cart := trimCartForDisplay (s.cart ++ [resolveItemFromCode (trimBytes rawCode)]) }) ∧
    (¬(s.appState = AppState.NORMAL ∧ isBarcodeControlResponse rawCode = false ∧
        BARCODE_MIN_VALID_LENGTH ≤ (trimBytes rawCode).length) →
      handleBarcodeCode rawCode s = s) := by
  constructor
  · rintro ⟨hState, hCtrl, hLen⟩
    have hGuard : ¬(s.appMode ≠ AppMode.REGISTER ∨ s.appState ≠ AppState.NORMAL) := by
      simp [hMode, hState]
    have hNorm : tryNormalizeInput rawCode = some (trimBytes rawCode) :=
      tryNormalizeInput_of_le rawCode (by
        have : MIN_VALID_INPUT_LENGTH ≤ BARCODE_MIN_VALID_LENGTH := by decide
        omega)
    have hNotShort : ¬(trimBytes rawCode).length < BARCODE_MIN_VALID_LENGTH := by omega
    simp [handleBarcodeCode, hGuard, hCtrl, hNorm, hNotShort]
  · intro hNot
    by_cases hState : s.appState = AppState.NORMAL
    · by_cases hCtrl : isBarcodeControlResponse rawCode = true
      · have hGuard : ¬(s.appMode ≠ AppMode.REGISTER ∨ s.appState ≠ AppState.NORMAL) := by
          simp [hMode, hState]
        simp [handleBarcodeCode, hGuard, hCtrl]
      · have hCtrlF : isBarcodeControlResponse rawCode = false := by simpa using hCtrl
        have hLen : (trimBytes rawCode).length < BARCODE_MIN_VALID_LENGTH := by
          by_cases hL : BARCODE_MIN_VALID_LENGTH ≤ (trimBytes rawCode).length
          · exact absurd ⟨hState, hCtrlF, hL⟩ hNot
          · omega
        have hGuard : ¬(s.appMode ≠ AppMode.REGISTER ∨ s.appState ≠ AppState.NORMAL) := by
          simp [hMode, hState]
        by_cases hShort : (trimBytes rawCode).length < MIN_VALID_INPUT_LENGTH
        · have hNorm := tryNormalizeInput_of_lt rawCode hShort
          simp [handleBarcodeCode, hGuard, hCtrlF, hNorm]
        · have hNorm := tryNormalizeInput_of_le rawCode (by omega)
          simp [handleBarcodeCode, hGuard, hCtrlF, hNorm, hLen]
    · have hGuard : s.appMode ≠ AppMode.REGISTER ∨ s.appState ≠ AppState.NORMAL := Or.inr hState
      simp [handleBarcodeCode, hGuard]

/-- handleBarcodeCode never changes the application state. -/
theorem handleBarcodeCode_appState (rawCode : Bytes) (s : RegState) :
    (handleBarcodeCode rawCode s).appState = s.appState := by
  unfold handleBarcodeCode
  split
  · rfl
  · split
    · rfl
    · split
      · rfl
      · split
        · rfl
        · rfl

/-- handleBarcodeCode is a no-op outside state NORMAL. -/
theorem handleBarcodeCode_of_not_normal (rawCode : Bytes) (s : RegState)
    (h : s.appState ≠ AppState.NORMAL) : handleBarcodeCode rawCode s = s := by
  unfold handleBarcodeCode
  rw [if_pos (Or.inr h)]

/-- handleRegisterTouch is a no-op outside state NORMAL. -/
theorem handleRegisterTouch_of_not_normal (hitClear : Bool) (s : RegState)
    (h : s.appState ≠ AppState.NORMAL) : handleRegisterTouch hitClear s = s := by
  unfold handleRegisterTouch
  rw [if_pos h]

/-- The cart-empty-in-THANK_YOU invariant of the register machine. -/
def ThankYouInv (s : RegState) : Prop :=
  s.appState = AppState.THANK_YOU → s.cart = []

theorem step_preserves_ThankYouInv (s : RegState) (op : Op)
    (h : ThankYouInv s) : ThankYouInv (step s op) := by
  cases op with
  | barcode rawCode =>
    intro habs
    simp only [step] at habs ⊢
    rw [handleBarcodeCode_appState] at habs
    have hnn : s.appState ≠ AppState.NORMAL := by
      rw [habs]
      exact fun hc => nomatch hc
    rw [handleBarcodeCode_of_not_normal rawCode s hnn]
    exact h habs
  | rfid now rawUid =>
    simp only [step, handleRfidUid]
    split
    · exact h
    · split
      · exact h
      · intro _
        rfl
  | clear hitClear =>
    simp only [step, handleRegisterTouch]
    split
    · exact h
    · split
      · exact h
      · intro _
        rfl
  | tick now =>
    simp only [step, updateThankYouState]
    split
    · exact h
    · split
      · exact h
      · intro habs
        simp at habs

theorem run_preserves_ThankYouInv (ops : List Op) (s : RegState)
    (h : ThankYouInv s) : ThankYouInv (run s ops) := by
  induction ops generalizing s with
  | nil => exact h
  | cons op rest ih => exact ih (step s op) (step_preserves_ThankYouInv s op h)

/-- In REGISTER mode and state THANK_YOU with entry timestamp t0, a tick at
t0 + d is a no-op before the dwell time and returns to NORMAL once d reaches
THANK_YOU_DURATION_MS. -/
theorem updateThankYouState_spec (s : RegState) (t0 d : Nat)
    (hMode : s.appMode = AppMode.REGISTER) (hState : s.appState = AppState.THANK_YOU)
    (hTs : s.thankYouStartedAtMs = t0) (hlt : t0 + d < 2 ^ 32) :
    (d < THANK_YOU_DURATION_MS → updateThankYouState (t0 + d) s = s) ∧
    (THANK_YOU_DURATION_MS ≤ d →
      updateThankYouState (t0 + d) s = { s with appState := AppState.NORMAL }) := by
  have hg : ¬(s.appMode ≠ AppMode.REGISTER ∨ s.appState ≠ AppState.THANK_YOU) := by
    simp [hMode, hState]
  unfold updateThankYouState
  rw [if_neg hg, hTs, usub32_add t0 d hlt]
  constructor
  · intro hd
    rw [if_pos hd]
  · intro hd
    rw [if_neg (by omega)]

/-! The claims. -/

/-- Claim C1: for every code string, the Code Resolver is a pure deterministic
function: two calls with the same string return an identical (name, price)
pair, given the fixed product-name candidate list.  In the embedding
resolveItemFromCode reads no mutable state at all, so equal inputs give equal
outputs. -/
theorem resolve_item_deterministic (c1 c2 : Bytes) (h : c1 = c2) :
    (resolveItemFromCode c1).name = (resolveItemFromCode c2).name ∧
    (resolveItemFromCode c1).price = (resolveItemFromCode c2).price := by
  subst h
  exact ⟨rfl, rfl⟩

/-- Witness for C1 at the code "4912345678904". -/
theorem resolve_item_deterministic_witness :
    (resolveItemFromCode [52, 57, 49, 50, 51, 52, 53, 54, 55, 56, 57, 48, 52]).name
      = (resolveItemFromCode [52, 57, 49, 50, 51, 52, 53, 54, 55, 56, 57, 48, 52]).name ∧
    (resolveItemFromCode [52, 57, 49, 50, 51, 52, 53, 54, 55, 56, 57, 48, 52]).price
      = (resolveItemFromCode [52, 57, 49, 50, 51, 52, 53, 54, 55, 56, 57, 48, 52]).price :=
  resolve_item_deterministic _ _ rfl

/-- Claim C2: for every code string c, the resolved price equals
50 + ((fnv1a32 (c ++ "|PRICE|v1") mod 46) * 10); consequently the price lies
in [50, 500] and is 50 plus a multiple of 10. -/
theorem resolve_item_price_formula (code : Bytes) :
    (resolveItemFromCode code).price
        = 50 + ((fnv1a32 (code ++ PRICE_SALT) % 46 : Nat) : Int) * 10 ∧
    50 ≤ (resolveItemFromCode code).price ∧
    (resolveItemFromCode code).price ≤ 500 ∧
    ((resolveItemFromCode code).price - 50) % 10 = 0 := by
  have hcount : ¬getProductNameCount = 0 := by decide
  have hform : (resolveItemFromCode code).price
      = 50 + ((fnv1a32 (code ++ PRICE_SALT) % 46 : Nat) : Int) * 10 := by
    unfold resolveItemFromCode
    rw [if_neg hcount]
    rfl
  have hlt : fnv1a32 (code ++ PRICE_SALT) % 46 < 46 := Nat.mod_lt _ (by norm_num)
  refine ⟨hform, ?_, ?_, ?_⟩ <;> rw [hform] <;> omega

/-- Claim C3: in REGISTER mode, from state NORMAL, handling an RFID UID whose
trimmed length is at least 2 moves to THANK_YOU with an empty cart (total 0)
and records the entry time; every later tick strictly before 3000 elapsed
milliseconds changes nothing, and a tick at 3000 or more elapsed milliseconds
returns the state to NORMAL. -/
theorem rfid_thank_you_auto_return (s : RegState) (rawUid : Bytes) (t0 : Nat)
    (hMode : s.appMode = AppMode.REGISTER)
    (hState : s.appState = AppState.NORMAL)
    (hLen : 2 ≤ (trimBytes rawUid).length) :
    (handleRfidUid t0 rawUid s).appState = AppState.THANK_YOU ∧
    (handleRfidUid t0 rawUid s).cart = [] ∧
    calculateTotalSum (handleRfidUid t0 rawUid s).cart = 0 ∧
    (handleRfidUid t0 rawUid s).thankYouStartedAtMs = t0 ∧
    (∀ d, d < 3000 → t0 + d < 2 ^ 32 →
      updateThankYouState (t0 + d) (handleRfidUid t0 rawUid s) = handleRfidUid t0 rawUid s) ∧
    (∀ d, 3000 ≤ d → t0 + d < 2 ^ 32 →
      (updateThankYouState (t0 + d) (handleRfidUid t0 rawUid s)).appState
        = AppState.NORMAL) := by
  have hGuard : ¬(s.appMode ≠ AppMode.REGISTER ∨ s.appState ≠ AppState.NORMAL) := by
    simp [hMode, hState]
  have hNorm : tryNormalizeInput rawUid = some (trimBytes rawUid) :=
    tryNormalizeInput_of_le rawUid hLen
  have hs1 : handleRfidUid t0 rawUid s
      = { s with cart := [], appState := AppState.THANK_YOU, thankYouStartedAtMs := t0 } := by
    unfold handleRfidUid
    rw [if_neg hGuard, hNorm]
  rw [hs1]
  refine ⟨rfl, rfl, rfl, rfl, ?_, ?_⟩
  · intro d hd hlt
    exact (updateThankYouState_spec _ t0 d (by simpa using hMode) rfl rfl hlt).1 hd
  · intro d hd hlt
    rw [(updateThankYouState_spec _ t0 d (by simpa using hMode) rfl rfl hlt).2 hd]

/-- Witness for C3: the spec scenario with UID "AB" at entry time 0, ticks at
2999 and 3000. -/
theorem rfid_thank_you_auto_return_witness :
    (handleRfidUid 0 [65, 66] initRegisterState).appState = AppState.THANK_YOU ∧
    (handleRfidUid 0 [65, 66] initRegisterState).cart = [] ∧
    updateThankYouState 2999 (handleRfidUid 0 [65, 66] initRegisterState)
      = handleRfidUid 0 [65, 66] initRegisterState ∧
    (updateThankYouState 3000 (handleRfidUid 0 [65, 66] initRegisterState)).appState
      = AppState.NORMAL := by
  have h := rfid_thank_you_auto_return initRegisterState [65, 66] 0 rfl rfl (by decide)
  exact ⟨h.1, h.2.1, h.2.2.2.2.1 2999 (by decide) (by decide),
    h.2.2.2.2.2 3000 (by decide) (by decide)⟩

/-- Counterexample for C4: on the input "A" CR "B" LF the reader emits the two
frames "A" and "B", while the same input with the CR byte removed yields the
single frame "AB" — so a CR does affect frame boundaries and the claimed
CR-removal equivalence is false. -/
theorem cr_discard_counterexample :
    (readAllFrames 0 0 [65, 13, 66, 10] { buffer := [], lastByteAtMs := 0 }).1
      = [[65], [66]] ∧
    List.filter (fun b => b != 13) [65, 13, 66, 10] = [65, 66, 10] ∧
    (readAllFrames 0 0 [65, 66, 10] { buffer := [], lastByteAtMs := 0 }).1
      = [[65, 66]] ∧
    ([[65], [66]] : List Bytes) ≠ [[65, 66]] :=
  ⟨by decide, by decide, by decide, by decide⟩

/-- Claim C4 (amended): a CR byte is never buffered, but it is handled exactly like
a newline — it terminates the current frame when the buffer is non-empty —
so the frames emitted for an input equal those for the same input with every
CR byte replaced by (not removed before) an LF. -/
theorem cr_terminates_like_newline (now gap : Nat) (stream : Bytes) (st : FrameState) :
    readAllFrames now gap (crToLf stream) st = readAllFrames now gap stream st := by
  unfold readAllFrames
  have hlen : (crToLf stream).length = stream.length := by simp [crToLf]
  rw [hlen, readAllFramesAux_crToLf]

/-- Counterexample for C5: with the four bytes "A" LF "B" LF available, one
readFrame call returns after the first frame "A", leaving the two bytes
"B" LF unconsumed on the stream — a single call neither consumes all
available bytes nor emits several frames. -/
theorem single_call_consume_counterexample :
    readFrame 0 300 [65, 10, 66, 10] { buffer := [], lastByteAtMs := 0 }
      = (some [65], [66, 10], { buffer := [], lastByteAtMs := 0 }) ∧
    ([66, 10] : Bytes) ≠ [] :=
  ⟨by decide, by decide⟩

/-- Claim C5 (amended): one readFrame call emits at most one frame and may leave
bytes on the stream; it reports no frame only once the stream is exhausted,
so the poll loop that repeats it until false consumes all available bytes and
may handle several terminator-delimited frames per poll (as on "A" LF "B"
LF); the inactivity fallback fires only with the stream exhausted, empties
the buffer, and the following call reports no frame, so at most one fallback
frame arises per poll. -/
theorem read_frame_poll_contract (now gap : Nat) (stream : Bytes)
    (st stF : FrameState) (f rest : Bytes) (stNext : FrameState) :
    (readFrame now gap stream st = (none, rest, stNext) → rest = []) ∧
    (readFrame now gap [] stF = (some f, rest, stNext) →
      f = stF.buffer ∧ rest = [] ∧ stNext.buffer = [] ∧
      readFrame now gap [] stNext = (none, [], stNext)) ∧
    (readAllFrames 0 BARCODE_FRAME_GAP_MS [65, 10, 66, 10]
        { buffer := [], lastByteAtMs := 0 }).1 = [[65], [66]] := by
  refine ⟨readFrame_none_rest now gap stream st, ?_, by decide⟩
  intro h
  unfold readFrame at h
  split at h
  · simp only [Prod.mk.injEq, Option.some.injEq] at h
    obtain ⟨hf, hrest, hst⟩ := h
    refine ⟨hf.symm, hrest.symm, by rw [← hst], ?_⟩
    rw [← hst]
    simp [readFrame]
  · simp at h

/-- Witness for C5 (amended), at gap 300: a call on the empty stream with an
empty buffer reports no frame with nothing left, and after the fallback emits
the pending "ABC" the next call reports no frame. -/
theorem read_frame_poll_contract_witness :
    ([] : Bytes) = [] ∧
    ([65, 66, 67] = ({ buffer := [65, 66, 67], lastByteAtMs := 0 } : FrameState).buffer ∧
      ([] : Bytes) = [] ∧
      ({ buffer := [], lastByteAtMs := 0 } : FrameState).buffer = [] ∧
      readFrame 300 300 [] { buffer := [], lastByteAtMs := 0 }
        = (none, [], { buffer := [], lastByteAtMs := 0 })) :=
  ⟨(read_frame_poll_contract 300 300 [] { buffer := [], lastByteAtMs := 0 }
      { buffer := [65, 66, 67], lastByteAtMs := 0 } [65, 66, 67] []
      { buffer := [], lastByteAtMs := 0 }).1 (by decide),
    (read_frame_poll_contract 300 300 [] { buffer := [], lastByteAtMs := 0 }
      { buffer := [65, 66, 67], lastByteAtMs := 0 } [65, 66, 67] []
      { buffer := [], lastByteAtMs := 0 }).2.1 (by decide)⟩

/-- Claim C6: the per-channel frame buffer never exceeds 128 bytes (it is trimmed
after every append), and feeding more than 128 printable bytes followed by a
terminator yields one frame equal to exactly the last 128 bytes fed. -/
theorem frame_buffer_cap_overflow (now gap t : Nat) (stream bytes : Bytes) (st : FrameState)
    (hlen : 128 < bytes.length)
    (hprint : ∀ b ∈ bytes, 32 ≤ b ∧ b ≤ 126)
    (hbuf : st.buffer.length ≤ 128) :
    ((readFrame now gap stream st).2.2).buffer.length ≤ 128 ∧
    (readAllFrames now gap (bytes ++ [10]) { buffer := [], lastByteAtMs := t }).1
      = [bytes.drop (bytes.length - 128)] := by
  refine ⟨readFrame_buffer_le now gap stream st hbuf, ?_⟩
  have hne : bytes ≠ [] := by
    intro habs
    rw [habs] at hlen
    simp at hlen
  have h1 : readFrame now gap (bytes ++ [10]) { buffer := [], lastByteAtMs := t }
      = readFrame now gap [10]
          { buffer := bytes.foldl (fun buf b => trimFrameBuffer (buf ++ [b])) [],
            lastByteAtMs := now } :=
    readFrame_printable now gap bytes [10] _ hprint hne
  have h2 : bytes.foldl (fun buf b => trimFrameBuffer (buf ++ [b])) ([] : Bytes)
      = bytes.drop (bytes.length - 128) := by
    have h2a := foldl_appendTrimmed bytes [] (by simp)
    rw [List.nil_append] at h2a
    exact h2a
  have hbne : bytes.drop (bytes.length - 128) ≠ [] := by
    intro habs
    have hd : (bytes.drop (bytes.length - 128)).length = bytes.length - (bytes.length - 128) := by
      simp
    rw [habs] at hd
    simp at hd
    omega
  have h3 : readFrame now gap [10]
        { buffer := bytes.drop (bytes.length - 128), lastByteAtMs := now }
      = (some (bytes.drop (bytes.length - 128)), [], { buffer := [], lastByteAtMs := now }) := by
    simp [readFrame, hbne]
  have h4 : readFrame now gap [] { buffer := ([] : Bytes), lastByteAtMs := now }
      = (none, [], { buffer := [], lastByteAtMs := now }) := by
    simp [readFrame]
  rw [readAllFrames_eq, h1, h2]
  simp only [h3]
  rw [readAllFrames_eq]
  simp only [h4]

/-- Witness for C6: 129 copies of the printable byte "A" then LF yield one
frame of the last 128 bytes. -/
theorem frame_buffer_cap_overflow_witness :
    ((readFrame 0 300 [] { buffer := [], lastByteAtMs := 0 }).2.2).buffer.length ≤ 128 ∧
    (readAllFrames 0 300 (List.replicate 129 65 ++ [10])
        { buffer := [], lastByteAtMs := 0 }).1
      = [(List.replicate 129 65).drop ((List.replicate 129 65).length - 128)] :=
  frame_buffer_cap_overflow 0 300 0 [] (List.replicate 129 65)
    { buffer := [], lastByteAtMs := 0 } (by simp)
    (by
      intro b hb
      rw [List.eq_of_mem_replicate hb]
      omega)
    (by decide)

/-- Claim C7: with a non-zero frame gap configured, a non-empty buffer, no bytes
available and the inactivity threshold reached, a poll emits the buffered
content as a frame and resets the buffer; with a gap of 0 the inactivity
fallback never emits a frame. -/
theorem inactivity_fallback_emission (now gap : Nat) (st stZ : FrameState)
    (h1 : 0 < gap) (h2 : st.buffer ≠ []) (h3 : gap ≤ usub32 now st.lastByteAtMs) :
    readFrame now gap [] st = (some st.buffer, [], { st with buffer := [] }) ∧
    readFrame now 0 [] stZ = (none, [], stZ) := by
  constructor
  · unfold readFrame
    rw [if_pos ⟨h1, h2, h3⟩]
  · unfold readFrame
    rw [if_neg (by simp)]

/-- Witness for C7: feeding "ABC" without a terminator buffers it without a
frame; the next poll 300 ms later emits the frame "ABC"; with gap 0 the same
buffered state emits nothing. -/
theorem inactivity_fallback_emission_witness :
    readFrame 0 300 [65, 66, 67] { buffer := [], lastByteAtMs := 0 }
      = (none, [], { buffer := [65, 66, 67], lastByteAtMs := 0 }) ∧
    readFrame 300 300 [] { buffer := [65, 66, 67], lastByteAtMs := 0 }
      = (some [65, 66, 67], [], { buffer := [], lastByteAtMs := 0 }) ∧
    readFrame 300 0 [] { buffer := [65, 66, 67], lastByteAtMs := 0 }
      = (none, [], { buffer := [65, 66, 67], lastByteAtMs := 0 }) := by
  refine ⟨by decide, ?_, ?_⟩
  · exact (inactivity_fallback_emission 300 300
      { buffer := [65, 66, 67], lastByteAtMs := 0 }
      { buffer := [65, 66, 67], lastByteAtMs := 0 }
      (by decide) (by decide) (by decide)).1
  · exact (inactivity_fallback_emission 300 300
      { buffer := [65, 66, 67], lastByteAtMs := 0 }
      { buffer := [65, 66, 67], lastByteAtMs := 0 }
      (by decide) (by decide) (by decide)).2

/-- Claim C8: a barcode frame equal to "3u", or of length at most 4 starting with a
double quote or a dollar sign, is classified as a control response and
handling it leaves the whole register state (cart included) unchanged. -/
theorem control_response_ignored (frame : Bytes) (s : RegState)
    (h : frame = [51, 117] ∨
      (frame.length ≤ 4 ∧ (startsWith frame [34] = true ∨ startsWith frame [36] = true))) :
    handleBarcodeCode frame s = s := by
  have hctrl : isBarcodeControlResponse frame = true := by
    rcases h with h | ⟨hlen, hsw⟩
    · rw [h]
      decide
    · have hb : (decide (frame.length ≤ 4)
          && (startsWith frame [34] || startsWith frame [36])) = true := by
        rw [Bool.and_eq_true, decide_eq_true_eq]
        refine ⟨hlen, ?_⟩
        rcases hsw with h | h <;> simp [h]
      unfold isBarcodeControlResponse
      by_cases heq : frame = [51, 117]
      · rw [if_pos heq]
      · rw [if_neg heq, if_pos hb]
  unfold handleBarcodeCode
  by_cases hg : s.appMode ≠ AppMode.REGISTER ∨ s.appState ≠ AppState.NORMAL
  · rw [if_pos hg]
  · rw [if_neg hg, if_pos hctrl]

/-- Witness for C8: the frames "$AB" and "3u" on the initial register state. -/
theorem control_response_ignored_witness :
    handleBarcodeCode [36, 65, 66] initRegisterState = initRegisterState ∧
    handleBarcodeCode [51, 117] initRegisterState = initRegisterState :=
  ⟨control_response_ignored [36, 65, 66] initRegisterState (Or.inr (by decide)),
    control_response_ignored [51, 117] initRegisterState (Or.inl rfl)⟩

/-- Claim C9: in every state reachable from the register machine initial state by
barcode-frame, RFID-frame, clear and tick events, state THANK_YOU implies an
empty cart and a zero total: the only transition into THANK_YOU clears the
cart first, and barcode append and clear are no-ops outside NORMAL. -/
theorem thank_you_cart_empty (ops : List Op)
    (h : (run initRegisterState ops).appState = AppState.THANK_YOU) :
    (run initRegisterState ops).cart = [] ∧
    calculateTotalSum (run initRegisterState ops).cart = 0 := by
  have hinv : ThankYouInv (run initRegisterState ops) :=
    run_preserves_ThankYouInv ops initRegisterState (fun habs => nomatch habs)
  have hc := hinv h
  refine ⟨hc, ?_⟩
  rw [hc]
  rfl

/-- Witness for C9: a single RFID event reaches THANK_YOU from the initial
state. -/
theorem thank_you_cart_empty_witness :
    (run initRegisterState [Op.rfid 5 [65, 66]]).cart = [] ∧
    calculateTotalSum (run initRegisterState [Op.rfid 5 [65, 66]]).cart = 0 :=
  thank_you_cart_empty [Op.rfid 5 [65, 66]] (by decide)

/-- Claim C10: a debug line of the form "BC:" followed by rest appends an item to
the cart exactly when the state is NORMAL, rest is not classified as a
barcode control response, and the trimmed rest is at least 6 characters long
(the dedicated barcode minimum, not the general minimum of 2); otherwise —
"BC:12345" for example — the line leaves the state unchanged. -/
theorem debug_barcode_min_length (now : Nat) (rawLine : Bytes) (s : RegState)
    (hMode : s.appMode = AppMode.REGISTER)
    (hBC : startsWith (trimBytes rawLine) [66, 67, 58] = true) :
    (s.appState = AppState.NORMAL ∧
        isBarcodeControlResponse ((trimBytes rawLine).drop 3) = false ∧
        6 ≤ (trimBytes ((trimBytes rawLine).drop 3)).length →
      handleDebugLine now rawLine s =
        { s with cart := trimCartForDisplay (s.cart ++
              [resolveItemFromCode (trimBytes ((trimBytes rawLine).drop 3))]) }) ∧
    (¬(s.appState = AppState.NORMAL ∧
        isBarcodeControlResponse ((trimBytes rawLine).drop 3) = false ∧
        6 ≤ (trimBytes ((trimBytes rawLine).drop 3)).length) →
      handleDebugLine now rawLine s = s) := by
  have hdl : handleDebugLine now rawLine s
      = handleBarcodeCode ((trimBytes rawLine).drop 3) s := by
    unfold handleDebugLine
    rw [if_pos hBC]
  rw [hdl]
  exact handleBarcodeCode_spec ((trimBytes rawLine).drop 3) s hMode

/-- Witness for C10: the line "BC:12345" (rest shorter than 6) is silently
ignored on the initial register state. -/
theorem debug_barcode_min_length_witness :
    handleDebugLine 0 [66, 67, 58, 49, 50, 51, 52, 53] initRegisterState
      = initRegisterState :=
  (debug_barcode_min_length 0 [66, 67, 58, 49, 50, 51, 52, 53] initRegisterState
    rfl (by decide)).2 (by decide)

end KidsRegister
